import Mathlib

/-!
Verification development for the feedflamer repository
(`src/feedflamer/feedflamer.py`, `src/feedflamer/config.py`).

The Python source is shallowly embedded: text is modelled as `List Char`,
pure Python functions become Lean functions, the effectful renderer and
orchestrator become state-passing functions over explicit oracles for the
external voice synthesizer, file deletion, the narrative service and the
feed fetch.  Machine integers do not overflow in the source (Python ints),
so counts are `Nat`/`Int` and averages are exact rationals `ℚ`
(a decimal model of Python's float formatting, noted where used).
-/

namespace Feedflamer

/-! ### Configuration constants (src/feedflamer/config.py) -/

def DEFAULT_TWEET_COUNT : Int := 10

def MAX_TWEET_COUNT : Int := 100

def MIN_TWEET_COUNT : Int := 1

def DEFAULT_LANGUAGE : String := "en"

def SPEECH_SPEED : Bool := false

/-! ### Python string primitives

`pySpace` models the characters stripped by `str.strip()` and matched by
`\s` in the `re` module for ASCII text. -/

def pySpace (c : Char) : Bool :=
  c = ' ' || c = '\t' || c = '\n' || c = '\r' || c = '\x0b' || c = '\x0c'

/-- Models Python `str.strip()`: drop leading and trailing whitespace. -/
def pyStrip (l : List Char) : List Char :=
  ((l.dropWhile pySpace).reverse.dropWhile pySpace).reverse

/-- Models Python `s.split('\n')`: split on every newline, keeping empty
pieces, so the empty string yields one empty line. -/
def splitLines : List Char → List (List Char)
  | [] => [[]]
  | c :: cs =>
    if c = '\n' then [] :: splitLines cs
    else
      match splitLines cs with
      | h :: t => (c :: h) :: t
      | [] => [[c]]

def isUpperAZ (c : Char) : Bool := 'A' ≤ c && c ≤ 'Z'

/-- Models Python `re.match(r'^([A-Z]+):\s*(.+)$', line)` on a single line
(a string containing no `'\n'`, as produced by splitting on newlines):
the label is the maximal uppercase run, which must be followed by `':'`;
the greedy `\s*` then consumes the maximal whitespace run, and `(.+)`
captures the nonempty remainder (backtracking one whitespace character
when the remainder would otherwise be empty). -/
def matchSpeakerLine (l : List Char) : Option (List Char × List Char) :=
  let lab := l.takeWhile isUpperAZ
  match l.dropWhile isUpperAZ with
  | ':' :: rest =>
    if lab.isEmpty then none
    else
      let tx := rest.dropWhile pySpace
      if tx.isEmpty then
        match rest.getLast? with
        | some c => some (lab, [c])
        | none => none
      else some (lab, tx)
  | _ => none

/-! ### Transcript parsing (text_to_speech_multispeaker, lines 263-293)

The per-line loop: strip the line, skip it when empty, match the speaker
pattern, and emit a structured utterance with a dense order index. -/

structure Utterance where
  speaker : List Char
  text : List Char
  order_index : Nat
  deriving DecidableEq, Repr

def parseLoop : Nat → List (List Char) → List Utterance
  | _, [] => []
  | idx, l :: ls =>
    let t := pyStrip l
    if t.isEmpty then parseLoop idx ls
    else
      match matchSpeakerLine t with
      | some (sp, tx) => ⟨sp, tx, idx⟩ :: parseLoop (idx + 1) ls
      | none => parseLoop idx ls

def parseScript (s : List Char) : List Utterance :=
  parseLoop 0 (splitLines s)

/-! ### Multi-speaker renderer (text_to_speech_multispeaker, lines 237-315)

The per-utterance synthesis pass filters the parsed lines through the
static voice map and produces one transient `temp_segment_{k}.mp3` per
synthesized utterance; the fallback pass strips label prefixes from the
whole script, collapses newline runs, and renders a single default-voice
track which becomes the persisted artifact.  Cleanup of the transient
files happens after both passes; each `os.remove` is wrapped in a
`try/except OSError: pass`. -/

structure VoiceSetting where
  lang : String
  tld : String
  slow : Bool
  deriving DecidableEq, Repr

def voice_settings : List (List Char × VoiceSetting) :=
  [("HOST".toList, ⟨"en", "com", false⟩),
   ("ALEX".toList, ⟨"en", "co.uk", false⟩),
   ("MAYA".toList, ⟨"en", "com.au", false⟩),
   ("JORDAN".toList, ⟨"en", "ca", false⟩),
   ("SAM".toList, ⟨"en", "com", false⟩)]

def lookupVoice (sp : List Char) : Option VoiceSetting :=
  (voice_settings.find? (fun p => p.1 = sp)).map (fun p => p.2)

/-- The synthesis calls of the per-utterance pass, in loop order: one
`(text, voice)` pair per stripped, pattern-matching line whose speaker
label is a key of `voice_settings` (the code's
`if speaker in voice_settings and text:` guard). -/
def renderSegments (script : List Char) : List (List Char × VoiceSetting) :=
  (splitLines script).filterMap (fun l =>
    match matchSpeakerLine (pyStrip l) with
    | some (sp, tx) =>
      match lookupVoice sp with
      | some vs => if tx.isEmpty then none else some (tx, vs)
      | none => none
    | none => none)

/-- One step of `re.sub(r'^[A-Z]+:\s*', '', script, flags=re.MULTILINE)`
at a line-start position: try to consume an uppercase run, a colon and
the maximal whitespace run (which may span newlines, since `\s` matches
`'\n'`).  Returns the remaining input together with whether the position
after the match is again a line start (i.e. the consumed whitespace run
ended with a newline). -/
def labelMatchAt (l : List Char) : Option (List Char × Bool) :=
  let lab := l.takeWhile isUpperAZ
  match l.dropWhile isUpperAZ with
  | ':' :: r =>
    if lab.isEmpty then none
    else some (r.dropWhile pySpace, (r.takeWhile pySpace).getLast? == some '\n')
  | _ => none

/-- The multiline substitution `re.sub(r'^[A-Z]+:\s*', '', script,
flags=re.MULTILINE)`: at every line-start position delete the label
match, elsewhere copy characters; a position is a line start iff it is
the start of the string or immediately follows `'\n'`.  The recursion is
driven by a fuel argument so that the definition is structural (hence
kernel-reducible); every step consumes at least one character, so fuel
equal to the input length is always sufficient (`stripLabelsFuel_congr`
below makes the fuel irrelevance precise). -/
def stripLabelsFuel : Nat → Bool → List Char → List Char
  | 0, _, _ => []
  | _ + 1, _, [] => []
  | f + 1, atStart, c :: cs =>
    if atStart then
      match labelMatchAt (c :: cs) with
      | some (rest, nl) => stripLabelsFuel f nl rest
      | none => c :: stripLabelsFuel f (c = '\n') cs
    else c :: stripLabelsFuel f (c = '\n') cs

/-- The substitution run from a position with known line-start status. -/
def stripLabelsFrom (atStart : Bool) (l : List Char) : List Char :=
  stripLabelsFuel l.length atStart l

def stripLabels (s : List Char) : List Char := stripLabelsFrom true s

/-- Models `re.sub(r'\n+', ' ', text)`: every maximal run of newlines
becomes a single space.  The flag records whether the previous character
was a newline (i.e. we are inside a run already replaced). -/
def collapseNLGo : Bool → List Char → List Char
  | _, [] => []
  | prevNL, c :: cs =>
    if c = '\n' then
      if prevNL then collapseNLGo true cs else ' ' :: collapseNLGo true cs
    else c :: collapseNLGo false cs

def collapseNewlines (s : List Char) : List Char := collapseNLGo false s

/-- The text handed to the fallback single-track synthesis call
(`combined_text` in the source). -/
def combinedText (script : List Char) : List Char :=
  collapseNewlines (stripLabels script)

/-- The fallback synthesis call `gTTS(text=combined_text, lang='en',
slow=False)`; the `tld` argument is omitted in the source, so gTTS's
default `'com'` applies. -/
def combinedCall (script : List Char) : List Char × VoiceSetting :=
  (combinedText script, ⟨"en", "com", false⟩)

/-! ### Effectful execution of the renderer

`synthOk k` tells whether the k-th `gTTS(...).save(...)` call succeeds
(the calls of the per-utterance loop are numbered from 0, the fallback
save is call `n` where `n` is the number of loop segments); `delOk k`
tells whether `os.remove` on `temp_segment_k.mp3` succeeds. -/

inductive PEvent where
  | fetched
  | generated
  | sidecarWritten
  | synthSeg (k : Nat)
  | synthFull
  deriving DecidableEq, Repr

def PEvent.isSynth : PEvent → Bool
  | .synthSeg _ => true
  | .synthFull => true
  | _ => false

/-- The per-utterance loop: starting at call index `k` with `m` segments
remaining, returns the list of temp-file indices created and whether the
loop ran to completion (the first failing save raises, ending the loop). -/
def passOneGo (synthOk : Nat → Bool) : Nat → Nat → List Nat × Bool
  | _, 0 => ([], true)
  | k, m + 1 =>
    if synthOk k then
      let r := passOneGo synthOk (k + 1) m
      (k :: r.1, r.2)
    else ([], false)

structure RenderOutcome where
  result : Except Unit (List Char)
  temps : List Nat
  events : List PEvent
  deriving Repr

/-- Execution model of `text_to_speech_multispeaker`: run the
per-utterance pass, then the fallback save, then (only if nothing
raised) best-effort deletion of the temp files.  `result` is `ok` with
the persisted track's text, or `error` when a synthesis call raised
(the code wraps and re-raises; the cleanup loop is not in a `finally`
block, so it is skipped on the raising paths).  `temps` is the set of
transient files still on disk when the function returns or raises. -/
def runRenderer (script : List Char) (synthOk delOk : Nat → Bool) :
    RenderOutcome :=
  let n := (renderSegments script).length
  let p := passOneGo synthOk 0 n
  if p.2 then
    if synthOk n then
      ⟨.ok (combinedText script), p.1.filter (fun k => !(delOk k)),
        p.1.map PEvent.synthSeg ++ [.synthFull]⟩
    else ⟨.error (), p.1, p.1.map PEvent.synthSeg ++ [.synthFull]⟩
  else ⟨.error (), p.1, p.1.map PEvent.synthSeg ++ [.synthSeg p.1.length]⟩

/-! ### Number and text formatting helpers

Decimal rendering of the values interpolated into the prompt f-string.
`fmtFixed1`/`fmtFixed0` are a decimal model of Python float formatting
(`{x:.1f}` / `{x:.0f}`) on exact rationals, rounding ties to even; all
values formatted by the program are non-negative. -/

def natDigitsGo : Nat → Nat → List Char → List Char
  | 0, _, acc => acc
  | _ + 1, 0, acc => acc
  | f + 1, n + 1, acc =>
    natDigitsGo f ((n + 1) / 10) (Char.ofNat (48 + (n + 1) % 10) :: acc)

def natStr (n : Nat) : List Char :=
  if n = 0 then ['0'] else natDigitsGo (n + 1) n []

def intStr : Int → List Char
  | .ofNat n => natStr n
  | .negSucc n => '-' :: natStr (n + 1)

/-- Insert thousands separators into a reversed digit string (model of
Python's `{n:,}` format for natural numbers). -/
def commaChunks : List Char → List Char
  | a :: b :: c :: d :: rest => a :: b :: c :: ',' :: commaChunks (d :: rest)
  | l => l

def commaFmt (n : Nat) : List Char := (commaChunks (natStr n).reverse).reverse

def boolStr (b : Bool) : List Char :=
  if b then "True".toList else "False".toList

/-- Round a rational to the nearest integer, ties to even. -/
def roundHE (q : ℚ) : Int :=
  let f := ⌊q⌋
  let r := q - f
  if r < 1 / 2 then f
  else if 1 / 2 < r then f + 1
  else if f % 2 = 0 then f else f + 1

def fmtFixed1 (q : ℚ) : List Char :=
  let m := roundHE (q * 10)
  intStr (m / 10) ++ '.' :: natStr (m % 10).natAbs

def fmtFixed0 (q : ℚ) : List Char := intStr (roundHE q)

/-! ### Data model (get_recent_tweets response shape)

A tweet record may lack the `public_metrics` dictionary or any single
count inside it; the code reads them with
`tweet.get('public_metrics', {}).get('like_count', 0)`. -/

structure PublicMetrics where
  like_count : Option Nat
  retweet_count : Option Nat
  reply_count : Option Nat
  deriving DecidableEq, Repr

structure Tweet where
  text : List Char
  public_metrics : Option PublicMetrics
  deriving DecidableEq, Repr

structure UserInfo where
  name : List Char
  username : List Char
  followers : Nat
  verified : Bool
  description : List Char
  deriving DecidableEq, Repr

structure TwitterData where
  user : UserInfo
  tweets : List Tweet
  fetched_at : String
  tweet_count : Nat
  deriving DecidableEq, Repr

def getLike (t : Tweet) : Nat :=
  match t.public_metrics with
  | some m => m.like_count.getD 0
  | none => 0

def getRetweet (t : Tweet) : Nat :=
  match t.public_metrics with
  | some m => m.retweet_count.getD 0
  | none => 0

def getReply (t : Tweet) : Nat :=
  match t.public_metrics with
  | some m => m.reply_count.getD 0
  | none => 0

/-! ### Engagement summarizer (analyze_tweets_sentiment, lines 131-150) -/

structure Stats where
  total_engagement : Nat
  avg_likes : ℚ
  avg_retweets : ℚ
  tweet_lengths : List Nat
  avg_length : ℚ
  deriving DecidableEq, Repr

def analyze_tweets_sentiment (tweets : List Tweet) : Stats :=
  let total_likes := (tweets.map getLike).sum
  let total_retweets := (tweets.map getRetweet).sum
  let total_replies := (tweets.map getReply).sum
  { total_engagement := total_likes + total_retweets + total_replies
    avg_likes :=
      if tweets.isEmpty then 0 else (total_likes : ℚ) / (tweets.length : ℚ)
    avg_retweets :=
      if tweets.isEmpty then 0 else (total_retweets : ℚ) / (tweets.length : ℚ)
    tweet_lengths := tweets.map (fun t => t.text.length)
    avg_length :=
      if tweets.isEmpty then 0
      else (((tweets.map (fun t => t.text.length)).sum : Nat) : ℚ) / (tweets.length : ℚ) }

/-! ### Prompt composer (generate_podcast_script, lines 162-217) -/

/-- The text of one tweet as shown in the prompt: the first 100
characters, then an ellipsis marker exactly when the text is longer
than 100 characters (`tweet['text'][:100]` plus
`'...' if len(tweet['text']) > 100 else ''`). -/
def displayText (t : Tweet) : List Char :=
  t.text.take 100 ++ (if 100 < t.text.length then "...".toList else [])

def summaryLine (i : Nat) (t : Tweet) : List Char :=
  "Tweet ".toList ++ natStr i ++ ": \"".toList ++ displayText t
    ++ "\" (❤️".toList ++ natStr (getLike t)
    ++ " 🔄".toList ++ natStr (getRetweet t)
    ++ " 💬".toList ++ natStr (getReply t) ++ ")".toList

/-- The summary-building loop `for i, tweet in enumerate(tweets[:5], 1)`. -/
def tweetSummariesGo (i : Nat) : List Tweet → List (List Char)
  | [] => []
  | t :: ts => summaryLine i t :: tweetSummariesGo (i + 1) ts

def tweet_summaries (tweets : List Tweet) : List (List Char) :=
  tweetSummariesGo 1 (tweets.take 5)

structure Panelist where
  name : String
  role : String
  personality : String
  voice_style : String
  deriving DecidableEq, Repr

/-- The fixed roster defined in `__init__`, in insertion order. -/
def panelists : List Panelist :=
  [⟨"Alex Rivera", "Social Media Strategist",
    "analytical, data-driven, focuses on engagement metrics and audience growth",
    "professional but approachable"⟩,
   ⟨"Dr. Maya Chen", "Digital Communications Expert",
    "academic, thoughtful, examines communication effectiveness and clarity",
    "measured and insightful"⟩,
   ⟨"Jordan Blake", "Content Creator & Influencer",
    "creative, trend-focused, evaluates entertainment value and viral potential",
    "energetic and casual"⟩,
   ⟨"Sam Martinez", "Brand Consultant",
    "business-minded, risk-aware, assesses brand impact and reputation",
    "direct and practical"⟩]

def panelist_descriptions : List (List Char) :=
  panelists.map (fun p =>
    "- ".toList ++ p.name.toList ++ " (".toList ++ p.role.toList
      ++ "): ".toList ++ p.personality.toList)

/-- The prompt f-string up to and including the profile block. -/
def promptIntro (u : UserInfo) : List Char :=
  "\n            Create a 4-5 minute podcast episode script where four social media experts critique recent tweets from @".toList
    ++ u.username ++ " (".toList ++ u.name
    ++ ").\n\n            USER PROFILE:\n            - Name: ".toList
    ++ u.name ++ " (@".toList ++ u.username
    ++ ")\n            - Followers: ".toList ++ commaFmt u.followers
    ++ "\n            - Verified: ".toList ++ boolStr u.verified
    ++ "\n            - Bio: ".toList ++ u.description.take 200

/-- The analysis block of the prompt, ending with the heading under which
the tweet summaries are joined. -/
def promptStats (tweets : List Tweet) : List Char :=
  let analysis := analyze_tweets_sentiment tweets
  "\n\n            RECENT TWEETS ANALYSIS:\n            - Total tweets analyzed: ".toList
    ++ natStr tweets.length
    ++ "\n            - Average engagement: ".toList ++ fmtFixed1 analysis.avg_likes
    ++ " likes, ".toList ++ fmtFixed1 analysis.avg_retweets
    ++ " retweets\n            - Average tweet length: ".toList
    ++ fmtFixed0 analysis.avg_length
    ++ " characters\n\n            TOP TWEETS TO DISCUSS:\n            ".toList

/-- The constant remainder of the prompt: panelist roster and the literal
script requirements. -/
def promptTail : List Char :=
  "\n\n            PANELISTS (each with distinct perspective):\n            ".toList
    ++ List.intercalate ['\n'] panelist_descriptions
    ++ "\n\n            SCRIPT REQUIREMENTS:\n            1. Start with a brief intro by a HOST introducing the episode and panelists\n            2. Each panelist should speak in their distinct style and focus area\n            3. Include natural conversation flow with agreements, disagreements, and building on each other\x27s points\n            4. Rate the overall Twitter presence on a scale of 1-10 with different criteria\n            5. Give constructive feedback and suggestions for improvement\n            6. End with quick final thoughts from each panelist\n            7. Keep it conversational and engaging, like a real podcast\n            8. Use clear speaker labels (HOST:, ALEX:, MAYA:, JORDAN:, SAM:)\n            9. Include natural speech patterns, pauses indicated by \"...\"\n            10. Total length: approximately 800-1000 words\n\n            Make it sound like genuine experts having a thoughtful discussion, not just listing facts.\n            ".toList

/-- The composed prompt.  It reads only the `user` and `tweets` fields of
the fetched data (statistics are recomputed from `tweets`; the roster is
the fixed `panelists` constant); in particular `fetched_at` and
`tweet_count` are not interpolated. -/
def promptOf (d : TwitterData) : List Char :=
  promptIntro d.user ++ promptStats d.tweets
    ++ List.intercalate ['\n'] (tweet_summaries d.tweets) ++ promptTail

/-! ### Script generation (generate_podcast_script, lines 219-235)

`service` is the external narrative generator: it receives the composed
prompt and either returns the transcript text or errors.  The
surrounding `try/except` wraps any service exception and re-raises; the
returned content is passed through unchanged — there is no check for an
empty result. -/

def generate_podcast_script (service : List Char → Except Unit (List Char))
    (d : TwitterData) : Except Unit (List Char) :=
  match service (promptOf d) with
  | .error e => .error e
  | .ok s => .ok s

/-! ### Pipeline orchestrator (generate_critique_podcast, lines 332-375)

Straight-line sequencing inside one `try`: fetch, generate the script,
write the transcript sidecar file, render audio; any raising step jumps
to the `except` handler which reports failure (empty return value).
Nothing ever deletes the sidecar file. -/

inductive FileId where
  | sidecar
  | audio
  | temp (k : Nat)
  deriving DecidableEq, Repr

structure PipelineOutcome where
  trace : List PEvent
  files : List FileId
  result : Option Unit
  deriving DecidableEq, Repr

def generate_critique_podcast (fetchOk : Bool)
    (service : List Char → Except Unit (List Char)) (d : TwitterData)
    (synthOk delOk : Nat → Bool) : PipelineOutcome :=
  if fetchOk then
    match generate_podcast_script service d with
    | .error _ => ⟨[.fetched], [], none⟩
    | .ok script =>
      let r := runRenderer script synthOk delOk
      ⟨[.fetched, .generated, .sidecarWritten] ++ r.events,
       FileId.sidecar :: r.temps.map FileId.temp
         ++ (match r.result with | .ok _ => [FileId.audio] | .error _ => []),
       match r.result with | .ok _ => some () | .error _ => none⟩
  else ⟨[], [], none⟩

/-! ### Interactive post-count input (main, lines 404-408)

`int(input(...) or "10")` with `ValueError` falling back to the default,
then `max(1, min(tweet_count, 100))`.  `pyToInt` models Python `int()`
on ASCII text: surrounding whitespace, an optional sign, then a nonempty
digit string in which underscores may appear between digits. -/

def pyDigitsGo (acc : Nat) : List Char → Option Nat
  | [] => some acc
  | '_' :: c :: cs =>
    if c.isDigit then pyDigitsGo (acc * 10 + (c.toNat - 48)) cs else none
  | ['_'] => none
  | c :: cs =>
    if c.isDigit then pyDigitsGo (acc * 10 + (c.toNat - 48)) cs else none

def pyDigits : List Char → Option Nat
  | [] => none
  | c :: cs => if c.isDigit then pyDigitsGo (c.toNat - 48) cs else none

def pyToInt (s : List Char) : Option Int :=
  match pyStrip s with
  | '+' :: rest => (pyDigits rest).map (fun n => (n : Int))
  | '-' :: rest => (pyDigits rest).map (fun n => -(n : Int))
  | l => (pyDigits l).map (fun n => (n : Int))

/-- The post-count chosen from one line of interactive input. -/
def chooseTweetCount (s : List Char) : Int :=
  let raw := if s.isEmpty then "10".toList else s
  match pyToInt raw with
  | some n => max 1 (min n 100)
  | none => 10

/-- A concrete tweet used to instantiate hypothesis-bearing theorems. -/
def tweetEx : Tweet := ⟨"hi".toList, some ⟨some 10, some 2, none⟩⟩

end Feedflamer

namespace Feedflamer

example : parseScript ("ALEX: Hello there".toList) =
    [⟨"ALEX".toList, "Hello there".toList, 0⟩] := by decide

example : parseScript ("not a label\nHOST: Welcome".toList) =
    [⟨"HOST".toList, "Welcome".toList, 0⟩] := by decide

example : parseScript ("".toList) = [] := by decide

example : parseScript ("   \n  \n".toList) = [] := by decide

example : stripLabels ("HOST: hi\nALEX: yo".toList) = "hi\nyo".toList := by decide

example : stripLabels ("HOST:\nALEX: hi".toList) = "hi".toList := by decide

example : collapseNewlines ("a\n\n\nb\nc".toList) = "a b c".toList := by decide

example : combinedText ("HOST: hi\nALEX: yo".toList) = "hi yo".toList := by decide

example :
    (renderSegments ("HOST: hi\nXYZ: drop\nALEX: yo".toList)).map Prod.fst =
      ["hi".toList, "yo".toList] := by decide

example :
    (runRenderer ("HOST: hi\nALEX: yo".toList) (fun k => k = 0)
      (fun _ => true)).temps = [0] := by decide

example : commaFmt 50000 = "50,000".toList := by decide

example : commaFmt 0 = "0".toList := by decide

example : commaFmt 1234567 = "1,234,567".toList := by decide

example : fmtFixed1 (35 / 3 : ℚ) = "11.7".toList := by
  have h : roundHE ((35 / 3 : ℚ) * 10) = 117 := by norm_num [roundHE]
  simp only [fmtFixed1, h]
  decide

example : fmtFixed1 (0 : ℚ) = "0.0".toList := by
  have h : roundHE ((0 : ℚ) * 10) = 0 := by norm_num [roundHE]
  simp only [fmtFixed1, h]
  decide

example : fmtFixed0 (100 : ℚ) = "100".toList := by
  have h : roundHE (100 : ℚ) = 100 := by norm_num [roundHE]
  simp only [fmtFixed0, h]
  decide

example : chooseTweetCount ("250".toList) = 100 := by decide

example : chooseTweetCount ("-3".toList) = 1 := by decide

example : chooseTweetCount ("abc".toList) = 10 := by decide

example : chooseTweetCount ("".toList) = 10 := by decide

example : chooseTweetCount (" ".toList) = 10 := by decide

example : chooseTweetCount ("1_0".toList) = 10 := by decide

example : pyToInt (" +42 ".toList) = some 42 := by decide

example :
    (analyze_tweets_sentiment [⟨"hi".toList, some ⟨some 10, some 2, none⟩⟩]).total_engagement
      = 12 := by decide

example :
    (analyze_tweets_sentiment [⟨"hi".toList, some ⟨some 10, some 2, none⟩⟩]).avg_likes
      = 10 := by norm_num [analyze_tweets_sentiment, getLike]

/-! ## Helper lemmas -/

theorem matchSpeakerLine_nil : matchSpeakerLine [] = none := rfl

theorem labelMatchAt_length {l rest : List Char} {nl : Bool}
    (h : labelMatchAt l = some (rest, nl)) : rest.length < l.length := by
  simp only [labelMatchAt] at h
  split at h
  case h_2 => exact absurd h (by simp)
  case h_1 r heq =>
    by_cases hl : (l.takeWhile isUpperAZ).isEmpty
    · rw [if_pos hl] at h; exact absurd h (by simp)
    · rw [if_neg hl] at h
      simp only [Option.some.injEq, Prod.mk.injEq] at h
      obtain ⟨hrest, -⟩ := h
      subst hrest
      have h1 : (r.dropWhile pySpace).length ≤ r.length :=
        (List.dropWhile_sublist pySpace).length_le
      have h2 : l.takeWhile isUpperAZ ++ ':' :: r = l := by
        rw [← heq]; exact List.takeWhile_append_dropWhile isUpperAZ l
      have h3 : l.takeWhile isUpperAZ ≠ [] := by
        simpa [List.isEmpty_iff] using hl
      have h4 : 1 ≤ (l.takeWhile isUpperAZ).length :=
        List.length_pos.mpr h3
      have h5 := congrArg List.length h2
      simp only [List.length_append, List.length_cons] at h5
      omega

theorem stripLabelsFuel_congr :
    ∀ (f g : Nat) (b : Bool) (l : List Char), l.length ≤ f → l.length ≤ g →
      stripLabelsFuel f b l = stripLabelsFuel g b l := by
  intro f
  induction f with
  | zero =>
    intro g b l hf _
    have : l = [] := List.length_eq_zero.mp (Nat.le_zero.mp hf)
    subst this
    cases g <;> rfl
  | succ f ih =>
    intro g b l hf hg
    cases l with
    | nil => cases g <;> rfl
    | cons c cs =>
      cases g with
      | zero => exact absurd hg (by simp)
      | succ g =>
        simp only [stripLabelsFuel]
        cases b with
        | false =>
          simp only [Bool.false_eq_true, if_false]
          have := ih g (c = '\n') cs (by simp at hf; omega) (by simp at hg; omega)
          rw [this]
        | true =>
          simp only [if_true]
          cases hm : labelMatchAt (c :: cs) with
          | none =>
            have := ih g (c = '\n') cs (by simp at hf; omega) (by simp at hg; omega)
            rw [this]
          | some p =>
            obtain ⟨rest, nl⟩ := p
            have hlt := labelMatchAt_length hm
            simp only [List.length_cons] at hlt hf hg
            exact ih g nl rest (by omega) (by omega)

theorem parseLoop_pairs (ls : List (List Char)) : ∀ idx : Nat,
    (parseLoop idx ls).map (fun u => (u.speaker, u.text)) =
      ls.filterMap (fun l => matchSpeakerLine (pyStrip l)) := by
  induction ls with
  | nil => intro idx; rfl
  | cons l ls ih =>
    intro idx
    simp only [parseLoop, List.filterMap_cons]
    by_cases he : (pyStrip l).isEmpty
    · rw [if_pos he]
      have hm : matchSpeakerLine (pyStrip l) = none := by
        rw [List.isEmpty_iff] at he
        rw [he]
        rfl
      rw [hm]
      exact ih idx
    · rw [if_neg he]
      cases hm : matchSpeakerLine (pyStrip l) with
      | none => exact ih idx
      | some p =>
        obtain ⟨sp, tx⟩ := p
        simp only [List.map_cons, ih (idx + 1)]

theorem parseLoop_indices (ls : List (List Char)) : ∀ idx : Nat,
    (parseLoop idx ls).map Utterance.order_index =
      List.range' idx (parseLoop idx ls).length := by
  induction ls with
  | nil => intro idx; rfl
  | cons l ls ih =>
    intro idx
    simp only [parseLoop]
    by_cases he : (pyStrip l).isEmpty
    · rw [if_pos he]; exact ih idx
    · rw [if_neg he]
      cases hm : matchSpeakerLine (pyStrip l) with
      | none => exact ih idx
      | some p =>
        obtain ⟨sp, tx⟩ := p
        simp only [List.map_cons, List.length_cons, List.range'_succ, ih (idx + 1)]

theorem splitLines_ne_nil (s : List Char) : splitLines s ≠ [] := by
  induction s with
  | nil => simp [splitLines]
  | cons c cs ih =>
    simp only [splitLines]
    by_cases hc : c = '\n'
    · simp [hc]
    · rw [if_neg hc]
      cases h : splitLines cs with
      | nil => simp
      | cons a t => simp

theorem noNL_of_mem_splitLines : ∀ (s l : List Char), l ∈ splitLines s → '\n' ∉ l := by
  intro s
  induction s with
  | nil =>
    intro l hl
    simp only [splitLines, List.mem_singleton] at hl
    subst hl
    simp
  | cons c cs ih =>
    intro l hl
    simp only [splitLines] at hl
    by_cases hc : c = '\n'
    · rw [if_pos hc] at hl
      rcases List.mem_cons.mp hl with h | h
      · subst h; simp
      · exact ih l h
    · rw [if_neg hc] at hl
      cases hsp : splitLines cs with
      | nil => exact absurd hsp (splitLines_ne_nil cs)
      | cons a t =>
        rw [hsp] at hl
        rcases List.mem_cons.mp hl with h | h
        · subst h
          intro hmem
          rcases List.mem_cons.mp hmem with h' | h'
          · exact hc h'.symm
          · exact ih a (hsp ▸ List.mem_cons_self a t) h'
        · exact ih l (hsp ▸ List.mem_cons_of_mem a h)

theorem pyStrip_sublist (l : List Char) : List.Sublist (pyStrip l) l := by
  have h1 : List.Sublist (l.dropWhile pySpace) l := List.dropWhile_sublist _
  have h2 : List.Sublist ((l.dropWhile pySpace).reverse.dropWhile pySpace)
      (l.dropWhile pySpace).reverse := List.dropWhile_sublist _
  have h3 := h2.reverse
  rw [List.reverse_reverse] at h3
  exact h3.trans h1

theorem noNL_pyStrip {l : List Char} (h : '\n' ∉ l) : '\n' ∉ pyStrip l :=
  fun hm => h ((pyStrip_sublist l).subset hm)

theorem takeWhile_split {α : Type} {p : α → Bool} (xs : List α) (y : α) (ys : List α)
    (hx : ∀ c ∈ xs, p c = true) (hy : p y = false) :
    (xs ++ y :: ys).takeWhile p = xs ∧ (xs ++ y :: ys).dropWhile p = y :: ys := by
  constructor
  · rw [List.takeWhile_append_of_pos hx, List.takeWhile_cons, hy]
    simp
  · rw [List.dropWhile_append_of_pos hx, List.dropWhile_cons, hy]
    simp

/-- The model of `re.match(r'^([A-Z]+):\s*(.+)$', line)` succeeds exactly
when the line splits as a nonempty uppercase run, a colon, a whitespace
run and a nonempty remainder. -/
theorem matchSpeakerLine_isSome_iff (l : List Char) :
    (matchSpeakerLine l).isSome = true ↔
      ∃ lab ws tx : List Char, l = lab ++ ':' :: (ws ++ tx) ∧ lab ≠ [] ∧
        (∀ c ∈ lab, isUpperAZ c = true) ∧ (∀ c ∈ ws, pySpace c = true) ∧
        tx ≠ [] := by
  constructor
  · intro h
    simp only [matchSpeakerLine] at h
    split at h
    case h_2 => simp at h
    case h_1 rest heq =>
      by_cases hl : (l.takeWhile isUpperAZ).isEmpty
      · rw [if_pos hl] at h; simp at h
      · rw [if_neg hl] at h
        have hlab : l.takeWhile isUpperAZ ≠ [] := by
          simpa [List.isEmpty_iff] using hl
        have hdec : l = l.takeWhile isUpperAZ ++ ':' :: rest := by
          conv_lhs => rw [← List.takeWhile_append_dropWhile isUpperAZ l]
          rw [heq]
        by_cases ht : (rest.dropWhile pySpace).isEmpty
        · rw [if_pos ht] at h
          cases hg : rest.getLast? with
          | none => rw [hg] at h; simp at h
          | some ch =>
            have hall : ∀ c ∈ rest, pySpace c = true :=
              List.dropWhile_eq_nil_iff.mp (by simpa [List.isEmpty_iff] using ht)
            refine ⟨l.takeWhile isUpperAZ, rest.dropLast, [ch], ?_, hlab,
              fun c hc => List.mem_takeWhile_imp hc,
              fun c hc => hall c ((List.dropLast_sublist rest).subset hc),
              by simp⟩
            have hrest : rest.dropLast ++ [ch] = rest := by
              obtain ⟨ys, hys⟩ := List.getLast?_eq_some_iff.mp hg
              subst hys
              simp
            rw [hrest]
            exact hdec
        · rw [if_neg ht] at h
          refine ⟨l.takeWhile isUpperAZ, rest.takeWhile pySpace,
            rest.dropWhile pySpace, ?_, hlab,
            fun c hc => List.mem_takeWhile_imp hc,
            fun c hc => List.mem_takeWhile_imp hc,
            by simpa [List.isEmpty_iff] using ht⟩
          rw [List.takeWhile_append_dropWhile]
          exact hdec
  · rintro ⟨lab, ws, tx, hdec, hlab, hup, hws, htx⟩
    subst hdec
    have hcol : isUpperAZ ':' = false := by decide
    obtain ⟨hta, hdr⟩ := takeWhile_split lab ':' (ws ++ tx) hup hcol
    have hlabE : lab.isEmpty = false := by
      simpa [List.isEmpty_iff] using hlab
    simp only [matchSpeakerLine, hdr, hta, hlabE]
    have hdw : (ws ++ tx).dropWhile pySpace = tx.dropWhile pySpace :=
      List.dropWhile_append_of_pos hws
    by_cases h3 : (tx.dropWhile pySpace).isEmpty
    · simp only [hdw, h3, if_true]
      cases hg : (ws ++ tx).getLast? with
      | none =>
        have : ws ++ tx = [] := List.getLast?_eq_none_iff.mp hg
        exact absurd (List.append_eq_nil.mp this).2 htx
      | some ch => simp
    · simp only [hdw, h3]
      simp

/-! ## Claim C1: transcript parsing -/

/-- C1: the parsing pass of `text_to_speech_multispeaker` emits a
structured (speaker, text) record for a line iff the line, stripped of
surrounding whitespace, matches `^[A-Z]+:\s*(.+)$` (equivalently, splits
as nonempty-uppercase-run, colon, whitespace-run, nonempty remainder);
empty-after-trim and non-matching lines are dropped; order indices over
the recognized utterances are exactly `0, 1, 2, ...`; no input (empty or
whitespace-only included) is an error — the structured sequence is just
empty. -/
theorem parseScript_characterization (s : List Char) :
    ((parseScript s).map (fun u => (u.speaker, u.text)) =
      (splitLines s).filterMap (fun l => matchSpeakerLine (pyStrip l)))
    ∧ (parseScript s).map Utterance.order_index =
        List.range (parseScript s).length
    ∧ ∀ l ∈ splitLines s, '\n' ∉ pyStrip l ∧
        ((matchSpeakerLine (pyStrip l)).isSome = true ↔
          ∃ lab ws tx : List Char, pyStrip l = lab ++ ':' :: (ws ++ tx) ∧
            lab ≠ [] ∧ (∀ c ∈ lab, isUpperAZ c = true) ∧
            (∀ c ∈ ws, pySpace c = true) ∧ tx ≠ []) := by
  refine ⟨parseLoop_pairs (splitLines s) 0, ?_, ?_⟩
  · rw [List.range_eq_range']
    exact parseLoop_indices (splitLines s) 0
  · intro l hl
    exact ⟨noNL_pyStrip (noNL_of_mem_splitLines s l hl),
      matchSpeakerLine_isSome_iff (pyStrip l)⟩

/-- C1 witness: instantiating the characterization on the concrete
transcript `"HOST: Hello\nnot a label"`. -/
theorem parseScript_characterization_witness :
    '\n' ∉ pyStrip ("HOST: Hello".toList) ∧
      ((matchSpeakerLine (pyStrip ("HOST: Hello".toList))).isSome = true ↔
        ∃ lab ws tx : List Char,
          pyStrip ("HOST: Hello".toList) = lab ++ ':' :: (ws ++ tx) ∧
            lab ≠ [] ∧ (∀ c ∈ lab, isUpperAZ c = true) ∧
            (∀ c ∈ ws, pySpace c = true) ∧ tx ≠ []) :=
  (parseScript_characterization ("HOST: Hello\nnot a label".toList)).2.2
    ("HOST: Hello".toList) (by decide)

/-! ## Claim C4: engagement summarizer -/

/-- C4: for the empty post sequence the summarizer yields averages of
exactly 0 without failing; for every non-empty sequence the averages are
the exact sums divided by the length, and `total_engagement` is the sum
of all like, retweet and reply counts. -/
theorem analyze_stats_correct (ts : List Tweet) :
    analyze_tweets_sentiment ([] : List Tweet) = ⟨0, 0, 0, [], 0⟩
    ∧ (analyze_tweets_sentiment ts).total_engagement =
        (ts.map getLike).sum + (ts.map getRetweet).sum + (ts.map getReply).sum
    ∧ (ts ≠ [] →
        (analyze_tweets_sentiment ts).avg_likes =
          (((ts.map getLike).sum : Nat) : ℚ) / (ts.length : ℚ)
        ∧ (analyze_tweets_sentiment ts).avg_retweets =
          (((ts.map getRetweet).sum : Nat) : ℚ) / (ts.length : ℚ)
        ∧ (analyze_tweets_sentiment ts).avg_length =
          (((ts.map (fun t => t.text.length)).sum : Nat) : ℚ) / (ts.length : ℚ)) := by
  refine ⟨rfl, rfl, fun h => ?_⟩
  have hne : ts.isEmpty = false := by
    cases ts with
    | nil => exact absurd rfl h
    | cons a l => rfl
  refine ⟨?_, ?_, ?_⟩ <;> simp [analyze_tweets_sentiment, hne]

/-- C4 witness: the non-empty case instantiated on one concrete tweet. -/
theorem analyze_stats_correct_witness :
    (analyze_tweets_sentiment [tweetEx]).avg_likes =
      ((([tweetEx].map getLike).sum : Nat) : ℚ) / (([tweetEx] : List Tweet).length : ℚ)
    ∧ (analyze_tweets_sentiment [tweetEx]).avg_retweets =
      ((([tweetEx].map getRetweet).sum : Nat) : ℚ) /
        (([tweetEx] : List Tweet).length : ℚ)
    ∧ (analyze_tweets_sentiment [tweetEx]).avg_length =
      ((([tweetEx].map (fun t => t.text.length)).sum : Nat) : ℚ) /
        (([tweetEx] : List Tweet).length : ℚ) :=
  (analyze_stats_correct [tweetEx]).2.2 (by decide)

/-! ## Claim C10: totality under missing metrics -/

/-- A tweet with its metric fields made explicit: every missing
dictionary or count replaced by the defaulted value. -/
def zeroFillMetrics (t : Tweet) : Tweet :=
  ⟨t.text, some ⟨some (getLike t), some (getRetweet t), some (getReply t)⟩⟩

theorem map_getLike_zeroFill (ts : List Tweet) :
    (ts.map zeroFillMetrics).map getLike = ts.map getLike := by
  rw [List.map_map]; rfl

theorem map_getRetweet_zeroFill (ts : List Tweet) :
    (ts.map zeroFillMetrics).map getRetweet = ts.map getRetweet := by
  rw [List.map_map]; rfl

theorem map_getReply_zeroFill (ts : List Tweet) :
    (ts.map zeroFillMetrics).map getReply = ts.map getReply := by
  rw [List.map_map]; rfl

theorem map_textLength_zeroFill (ts : List Tweet) :
    (ts.map zeroFillMetrics).map (fun t => t.text.length) =
      ts.map (fun t => t.text.length) := by
  rw [List.map_map]; rfl

theorem isEmpty_map_zeroFill (ts : List Tweet) :
    (ts.map zeroFillMetrics).isEmpty = ts.isEmpty := by
  cases ts <;> rfl

theorem analyze_zeroFill (ts : List Tweet) :
    analyze_tweets_sentiment (ts.map zeroFillMetrics) =
      analyze_tweets_sentiment ts := by
  simp only [analyze_tweets_sentiment, map_getLike_zeroFill,
    map_getRetweet_zeroFill, map_getReply_zeroFill, map_textLength_zeroFill,
    isEmpty_map_zeroFill, List.length_map]

theorem summaryLine_zeroFill (i : Nat) (t : Tweet) :
    summaryLine i (zeroFillMetrics t) = summaryLine i t := rfl

theorem tweetSummariesGo_zeroFill :
    ∀ (ts : List Tweet) (i : Nat),
      tweetSummariesGo i (ts.map zeroFillMetrics) = tweetSummariesGo i ts := by
  intro ts
  induction ts with
  | nil => intro i; rfl
  | cons t ts ih =>
    intro i
    simp only [List.map_cons, tweetSummariesGo]
    rw [ih (i + 1), summaryLine_zeroFill]

theorem tweet_summaries_zeroFill (ts : List Tweet) :
    tweet_summaries (ts.map zeroFillMetrics) = tweet_summaries ts := by
  unfold tweet_summaries
  rw [← List.map_take, tweetSummariesGo_zeroFill]

/-- C10: the summarizer and the prompt composer are total on tweets with
missing `public_metrics` or missing individual counts, and treat every
missing count as 0: filling the defaults in explicitly changes neither
the statistics, nor the summary lines, nor the composed prompt; a tweet
with no metrics record contributes 0 to every count. -/
theorem missing_metrics_default_zero (ts : List Tweet) :
    analyze_tweets_sentiment (ts.map zeroFillMetrics) =
      analyze_tweets_sentiment ts
    ∧ tweet_summaries (ts.map zeroFillMetrics) = tweet_summaries ts
    ∧ (∀ (u : UserInfo) (fa : String) (tc : Nat),
        promptOf ⟨u, ts.map zeroFillMetrics, fa, tc⟩ = promptOf ⟨u, ts, fa, tc⟩)
    ∧ (∀ txt : List Char, getLike ⟨txt, none⟩ = 0 ∧ getRetweet ⟨txt, none⟩ = 0
        ∧ getReply ⟨txt, none⟩ = 0)
    ∧ (∀ (txt : List Char) (rc : Option Nat) (pc : Option Nat),
        getLike ⟨txt, some ⟨none, rc, pc⟩⟩ = 0) := by
  refine ⟨analyze_zeroFill ts, tweet_summaries_zeroFill ts, fun u fa tc => ?_,
    fun txt => ⟨rfl, rfl, rfl⟩, fun txt rc pc => rfl⟩
  simp only [promptOf, promptStats, analyze_zeroFill, tweet_summaries_zeroFill,
    List.length_map]

/-! ## Claim C6: prompt determinism -/

/-- C6: the composed prompt is a pure function of the profile fields and
the post sequence — two fetched records agreeing on `user` and `tweets`
(even with different fetch timestamps and counts) compose byte-identical
prompts; no timestamp or randomness is interpolated. -/
theorem prompt_deterministic (d₁ d₂ : TwitterData)
    (hu : d₁.user = d₂.user) (ht : d₁.tweets = d₂.tweets) :
    promptOf d₁ = promptOf d₂ := by
  simp only [promptOf, hu, ht]

/-- C6 witness: two runs whose inputs differ only in the fetch timestamp
and the reported tweet count produce the same prompt. -/
theorem prompt_deterministic_witness :
    promptOf ⟨⟨"Test User".toList, "test".toList, 50000, true, "bio".toList⟩,
        [⟨"hello".toList, some ⟨some 1, some 2, some 3⟩⟩],
        "2024-01-01T00:00:00", 1⟩ =
      promptOf ⟨⟨"Test User".toList, "test".toList, 50000, true, "bio".toList⟩,
        [⟨"hello".toList, some ⟨some 1, some 2, some 3⟩⟩],
        "2024-06-30T12:34:56", 99⟩ :=
  prompt_deterministic _ _ rfl rfl

/-! ## Claim C5: prompt includes at most the first five posts, truncated -/

theorem tweetSummariesGo_enumFrom :
    ∀ (ts : List Tweet) (i : Nat),
      tweetSummariesGo i ts =
        (List.enumFrom i ts).map (fun p => summaryLine p.1 p.2) := by
  intro ts
  induction ts with
  | nil => intro i; rfl
  | cons t ts ih =>
    intro i
    simp only [tweetSummariesGo, List.enumFrom_cons, List.map_cons]
    rw [ih (i + 1)]

/-- C5: the prompt's discussion block is built from at most the first 5
posts in arrival order, each rendered by `summaryLine`; a post's text is
shown as its first 100 characters followed by an ellipsis marker exactly
when it is longer than 100 characters, and verbatim otherwise. -/
theorem prompt_top_five_truncation (d : TwitterData) :
    (tweet_summaries d.tweets).length = min 5 d.tweets.length
    ∧ tweet_summaries d.tweets =
        (List.enumFrom 1 (d.tweets.take 5)).map (fun p => summaryLine p.1 p.2)
    ∧ (∃ pre post : List Char,
        promptOf d =
          pre ++ List.intercalate ['\n'] (tweet_summaries d.tweets) ++ post)
    ∧ (∀ t : Tweet,
        (t.text.length ≤ 100 → displayText t = t.text)
        ∧ (100 < t.text.length →
            displayText t = t.text.take 100 ++ "...".toList ∧
              (displayText t).length = 103)) := by
  refine ⟨?_, ?_, ⟨promptIntro d.user ++ promptStats d.tweets, promptTail, rfl⟩,
    fun t => ⟨fun h => ?_, fun h => ⟨?_, ?_⟩⟩⟩
  · unfold tweet_summaries
    rw [tweetSummariesGo_enumFrom, List.length_map, List.enumFrom_length,
      List.length_take]
  · unfold tweet_summaries
    rw [tweetSummariesGo_enumFrom]
  · unfold displayText
    rw [if_neg (Nat.not_lt.mpr h), List.append_nil, List.take_of_length_le h]
  · simp [displayText, h]
  · simp only [displayText, if_pos h, List.length_append, List.length_take]
    have : min 100 t.text.length = 100 := by omega
    rw [this]
    rfl

/-- C5 witness: a 3-character text appears verbatim, a 150-character text
is cut at 100 characters and marked with an ellipsis. -/
theorem prompt_top_five_truncation_witness :
    displayText ⟨"abc".toList, none⟩ = "abc".toList
    ∧ displayText ⟨List.replicate 150 'x', none⟩ =
        (List.replicate 150 'x').take 100 ++ "...".toList :=
  ⟨((prompt_top_five_truncation ⟨⟨[], [], 0, false, []⟩, [], "", 0⟩).2.2.2
      ⟨"abc".toList, none⟩).1 (by decide),
   (((prompt_top_five_truncation ⟨⟨[], [], 0, false, []⟩, [], "", 0⟩).2.2.2
      ⟨List.replicate 150 'x', none⟩).2 (by simp)).1⟩

/-! ## Claim C7: failure signalling of script generation -/

/-- C7 counterexample: a narrative service returning the empty string
makes `generate_podcast_script` return the empty script successfully —
no failure is raised for an empty result, contradicting the claim. -/
theorem generation_returns_empty_result :
    generate_podcast_script (fun _ => .ok [])
      ⟨⟨[], [], 0, false, []⟩, [], "", 0⟩ = .ok [] := rfl

/-- C7 (amended): `generate_podcast_script` signals a failure exactly
when the narrative service call errors; a successful service result —
including the empty string — is returned unchanged. -/
theorem generation_error_iff (service : List Char → Except Unit (List Char))
    (d : TwitterData) :
    (generate_podcast_script service d = .error () ↔
      service (promptOf d) = .error ())
    ∧ ∀ s, service (promptOf d) = .ok s →
        generate_podcast_script service d = .ok s := by
  constructor
  · cases h : service (promptOf d) with
    | error e => cases e; simp [generate_podcast_script, h]
    | ok s => simp [generate_podcast_script, h]
  · intro s hs
    simp [generate_podcast_script, hs]

/-- C7 witness: a service returning a transcript has it passed through. -/
theorem generation_error_iff_witness :
    generate_podcast_script (fun _ => .ok ("HOST: hi".toList))
      ⟨⟨[], [], 0, false, []⟩, [], "", 0⟩ = .ok ("HOST: hi".toList) :=
  (generation_error_iff (fun _ => .ok ("HOST: hi".toList))
    ⟨⟨[], [], 0, false, []⟩, [], "", 0⟩).2 ("HOST: hi".toList) rfl

/-! ## Renderer execution helper lemmas -/

theorem takeWhile_all {α : Type} {p : α → Bool} (l : List α)
    (h : ∀ c ∈ l, p c = true) : l.takeWhile p = l :=
  List.takeWhile_eq_self_iff.mpr h

theorem passOneGo_spec (synthOk : Nat → Bool) : ∀ (m k : Nat),
    (passOneGo synthOk k m).1 = (List.range' k m).takeWhile synthOk
    ∧ ((passOneGo synthOk k m).2 = true ↔
        ∀ i ∈ List.range' k m, synthOk i = true) := by
  intro m
  induction m with
  | zero => intro k; exact ⟨rfl, by simp [passOneGo]⟩
  | succ m ih =>
    intro k
    by_cases h : synthOk k = true
    · constructor
      · simp only [passOneGo, h, if_true, List.range'_succ,
          List.takeWhile_cons_of_pos h]
        rw [(ih (k + 1)).1]
      · simp only [passOneGo, h, if_true, List.range'_succ,
          List.forall_mem_cons]
        rw [(ih (k + 1)).2]
        simp [h]
    · have hb : synthOk k = false := by simpa using h
      constructor
      · simp only [passOneGo, hb, Bool.false_eq_true, if_false,
          List.range'_succ]
        rw [List.takeWhile_cons_of_neg h]
      · simp only [passOneGo, hb, Bool.false_eq_true, if_false,
          List.range'_succ, List.forall_mem_cons]
        simp [hb]

theorem runRenderer_ok (script : List Char) (synthOk delOk : Nat → Bool)
    (h : ∀ k, k ≤ (renderSegments script).length → synthOk k = true) :
    runRenderer script synthOk delOk =
      ⟨.ok (combinedText script),
       (List.range (renderSegments script).length).filter (fun k => !(delOk k)),
       (List.range (renderSegments script).length).map PEvent.synthSeg
         ++ [.synthFull]⟩ := by
  have hspec := passOneGo_spec synthOk (renderSegments script).length 0
  have h2 : (passOneGo synthOk 0 (renderSegments script).length).2 = true := by
    rw [hspec.2]
    intro i hi
    have hi' := List.mem_range'_1.mp hi
    exact h i (by omega)
  have h1 : (passOneGo synthOk 0 (renderSegments script).length).1 =
      List.range (renderSegments script).length := by
    rw [hspec.1, ← List.range_eq_range']
    exact takeWhile_all _ (fun c hc => h c (Nat.le_of_lt (List.mem_range.mp hc)))
  simp only [runRenderer, h2, if_true, h _ (Nat.le_refl _), h1]

theorem runRenderer_err (script : List Char) (synthOk delOk : Nat → Bool)
    (h : ∃ k, k ≤ (renderSegments script).length ∧ synthOk k = false) :
    (runRenderer script synthOk delOk).result = .error ()
    ∧ (runRenderer script synthOk delOk).temps =
        (List.range (renderSegments script).length).takeWhile synthOk := by
  obtain ⟨k0, hk0, hf⟩ := h
  have hspec := passOneGo_spec synthOk (renderSegments script).length 0
  by_cases h2 : (passOneGo synthOk 0 (renderSegments script).length).2 = true
  · have hall := hspec.2.mp h2
    have hk0n : k0 = (renderSegments script).length := by
      by_contra hne
      have hlt : k0 < (renderSegments script).length := lt_of_le_of_ne hk0 hne
      have := hall k0 (List.mem_range'_1.mpr ⟨Nat.zero_le _, by omega⟩)
      rw [this] at hf
      simp at hf
    subst hk0n
    constructor
    · simp only [runRenderer, h2, if_true, hf, Bool.false_eq_true, if_false]
    · simp only [runRenderer, h2, if_true, hf, Bool.false_eq_true, if_false,
        hspec.1, ← List.range_eq_range']
  · have h2f : (passOneGo synthOk 0 (renderSegments script).length).2 = false := by
      simpa using h2
    constructor
    · simp only [runRenderer, h2f, Bool.false_eq_true, if_false]
    · simp only [runRenderer, h2f, Bool.false_eq_true, if_false, hspec.1,
        ← List.range_eq_range']

/-! ## Claim C2: transient file cleanup -/

/-- C2 counterexample: on the transcript `"HOST: hi\nALEX: yo"`, with the
first per-utterance synthesis succeeding and the second raising, the
renderer exits with an error while `temp_segment_0.mp3` is still on disk
even though deletion would have succeeded — cleanup is not attempted on
the failing path, refuting the claim that every transient file is
deleted on every exit path. -/
theorem renderer_leaves_temp_on_failure :
    (runRenderer ("HOST: hi\nALEX: yo".toList) (fun k => k = 0)
        (fun _ => true)).result = .error ()
    ∧ (runRenderer ("HOST: hi\nALEX: yo".toList) (fun k => k = 0)
        (fun _ => true)).temps = [0] := by
  constructor <;> rfl

/-- C2 (amended): temp-file deletion is attempted only on the fully
successful path — after all per-utterance saves and the fallback save
succeed, exactly the files whose `os.remove` fails remain, and deletion
failures never make the call fail; but when any synthesis call raises
(per-utterance or fallback), the function exits with an error and the
already-created temp files are all left in place. -/
theorem renderer_cleanup_success_only (script : List Char)
    (synthOk delOk : Nat → Bool) :
    ((∀ k, k ≤ (renderSegments script).length → synthOk k = true) →
      (runRenderer script synthOk delOk).result = .ok (combinedText script)
      ∧ (runRenderer script synthOk delOk).temps =
          (List.range (renderSegments script).length).filter (fun k => !(delOk k)))
    ∧ ((∃ k, k ≤ (renderSegments script).length ∧ synthOk k = false) →
      (runRenderer script synthOk delOk).result = .error ()
      ∧ (runRenderer script synthOk delOk).temps =
          (List.range (renderSegments script).length).takeWhile synthOk) := by
  constructor
  · intro h
    rw [runRenderer_ok script synthOk delOk h]
    exact ⟨rfl, rfl⟩
  · exact runRenderer_err script synthOk delOk

/-- C2 witness: a fully successful run keeps only the files whose
deletion fails; a run with a failing second synthesis keeps everything
created before the failure. -/
theorem renderer_cleanup_success_only_witness :
    ((runRenderer ("HOST: hi".toList) (fun _ => true) (fun _ => false)).result =
        .ok (combinedText ("HOST: hi".toList))
      ∧ (runRenderer ("HOST: hi".toList) (fun _ => true) (fun _ => false)).temps =
          (List.range (renderSegments ("HOST: hi".toList)).length).filter
            (fun k => !((fun _ => false) k)))
    ∧ ((runRenderer ("HOST: hi\nALEX: yo".toList) (fun k => k = 0)
          (fun _ => false)).result = .error ()
      ∧ (runRenderer ("HOST: hi\nALEX: yo".toList) (fun k => k = 0)
          (fun _ => false)).temps =
          (List.range (renderSegments ("HOST: hi\nALEX: yo".toList)).length).takeWhile
            (fun k => k = 0)) :=
  ⟨(renderer_cleanup_success_only ("HOST: hi".toList) (fun _ => true)
      (fun _ => false)).1 (fun k _ => rfl),
   (renderer_cleanup_success_only ("HOST: hi\nALEX: yo".toList) (fun k => k = 0)
      (fun _ => false)).2 ⟨1, by decide, by decide⟩⟩

/-! ## Fallback-text helper lemmas (claim C3) -/

theorem noNL_collapseNLGo : ∀ (s : List Char) (b : Bool), '\n' ∉ collapseNLGo b s := by
  intro s
  induction s with
  | nil => intro b; simp [collapseNLGo]
  | cons c cs ih =>
    intro b
    simp only [collapseNLGo]
    by_cases hc : c = '\n'
    · rw [if_pos hc]
      cases b with
      | true => exact ih true
      | false =>
        intro hm
        rcases List.mem_cons.mp hm with h | h
        · exact absurd h.symm (by decide)
        · exact ih true h
    · rw [if_neg hc]
      intro hm
      rcases List.mem_cons.mp hm with h | h
      · exact hc h.symm
      · exact ih false h

theorem collapseNLGo_append_noNL (a r : List Char) (h : '\n' ∉ a) :
    collapseNLGo false (a ++ r) = a ++ collapseNLGo false r := by
  induction a with
  | nil => rfl
  | cons c cs ih =>
    have hc : ¬ c = '\n' := fun hc => h (hc ▸ List.mem_cons_self c cs)
    have h' : '\n' ∉ cs := fun hm => h (List.mem_cons_of_mem c hm)
    simp only [List.cons_append, collapseNLGo, if_neg hc, List.append_eq]
    rw [ih h']

theorem collapseNLGo_true_runs (c : List Char)
    (hc : c = [] ∨ ∃ x xs, c = x :: xs ∧ x ≠ '\n') :
    ∀ k : Nat, collapseNLGo true (List.replicate k '\n' ++ c) =
      collapseNLGo false c := by
  intro k
  induction k with
  | zero =>
    simp only [List.replicate_zero, List.nil_append]
    rcases hc with h | ⟨x, xs, hx, hxn⟩
    · subst h; rfl
    · subst hx
      simp only [collapseNLGo, if_neg hxn]
  | succ k ih =>
    simp only [List.replicate_succ, List.cons_append, collapseNLGo, if_pos rfl]
    exact ih

/-- Each maximal newline run (here of length `k + 1`) in the fallback
text becomes exactly one space. -/
theorem collapse_newline_run (a c : List Char) (k : Nat) (h : '\n' ∉ a)
    (hc : c = [] ∨ ∃ x xs, c = x :: xs ∧ x ≠ '\n') :
    collapseNewlines (a ++ List.replicate (k + 1) '\n' ++ c) =
      a ++ ' ' :: collapseNewlines c := by
  unfold collapseNewlines
  rw [List.append_assoc, collapseNLGo_append_noNL a _ h]
  congr 1
  simp only [List.replicate_succ, List.cons_append, collapseNLGo, if_pos rfl,
    Bool.false_eq_true, if_false, List.append_eq]
  rw [collapseNLGo_true_runs c hc k]
  simp

/-- A line-start occurrence of the label pattern — a nonempty uppercase
run, a colon, a maximal whitespace run (`rest` starts with a
non-whitespace character or is empty) — is deleted by the multiline
substitution, which then continues after it; the position after the
match is a line start again exactly when the consumed whitespace ended
with a newline. -/
theorem stripLabelsFrom_step (lab ws rest : List Char) (hlab : lab ≠ [])
    (hup : ∀ c ∈ lab, isUpperAZ c = true)
    (hws : ∀ c ∈ ws, pySpace c = true)
    (hrest : rest = [] ∨ ∃ c cs, rest = c :: cs ∧ pySpace c = false) :
    stripLabelsFrom true (lab ++ ':' :: (ws ++ rest)) =
      stripLabelsFrom (ws.getLast? == some '\n') rest := by
  obtain ⟨hta, hdr⟩ :=
    takeWhile_split lab ':' (ws ++ rest) hup (by decide)
  have hdw : (ws ++ rest).dropWhile pySpace = rest := by
    rw [List.dropWhile_append_of_pos hws]
    rcases hrest with h | ⟨c, cs, hceq, hcp⟩
    · subst h; rfl
    · subst hceq
      rw [List.dropWhile_cons_of_neg (by simp [hcp])]
  have htw : (ws ++ rest).takeWhile pySpace = ws := by
    rcases hrest with h | ⟨c, cs, hceq, hcp⟩
    · subst h
      rw [List.append_nil]
      exact takeWhile_all ws hws
    · subst hceq
      exact (takeWhile_split ws c cs hws hcp).1
  have hlabE : lab.isEmpty = false := by
    cases lab with
    | nil => exact absurd rfl hlab
    | cons a as => rfl
  have hmatch : labelMatchAt (lab ++ ':' :: (ws ++ rest)) =
      some (rest, ws.getLast? == some '\n') := by
    simp only [labelMatchAt, hta, hdr, hdw, htw, hlabE, Bool.false_eq_true,
      if_false]
  rcases lab with _ | ⟨a, as⟩
  · exact absurd rfl hlab
  · simp only [List.cons_append] at hmatch ⊢
    show stripLabelsFuel ((a :: (as ++ ':' :: (ws ++ rest))).length) true
        (a :: (as ++ ':' :: (ws ++ rest))) = _
    simp only [List.length_cons, stripLabelsFuel, hmatch, if_true]
    exact stripLabelsFuel_congr _ _ _ _
      (by simp [List.length_append]; omega) (Nat.le_refl _)

/-! ## Claim C3: fallback single-track text and default voice -/

/-- C3: the persisted track's text is exactly the raw transcript with
every line-start `[A-Z]+:` label prefix (and its trailing whitespace)
removed and every newline run collapsed to a single space, synthesized
with the single default voice configuration (default language `'en'`,
normal rate, default domain); the stripping and collapsing conjuncts
characterize those two substitutions on pattern occurrences, and the
resulting text never contains a line break. -/
theorem renderer_fallback_default_voice (script : List Char)
    (synthOk delOk : Nat → Bool) :
    ((∀ k, synthOk k = true) →
      (runRenderer script synthOk delOk).result =
        .ok (collapseNewlines (stripLabels script)))
    ∧ combinedCall script =
        (collapseNewlines (stripLabels script),
          ⟨DEFAULT_LANGUAGE, "com", SPEECH_SPEED⟩)
    ∧ '\n' ∉ combinedText script
    ∧ (∀ lab ws rest : List Char, lab ≠ [] →
        (∀ c ∈ lab, isUpperAZ c = true) → (∀ c ∈ ws, pySpace c = true) →
        (rest = [] ∨ ∃ c cs, rest = c :: cs ∧ pySpace c = false) →
        stripLabelsFrom true (lab ++ ':' :: (ws ++ rest)) =
          stripLabelsFrom (ws.getLast? == some '\n') rest)
    ∧ (∀ (a c : List Char) (k : Nat), '\n' ∉ a →
        (c = [] ∨ ∃ x xs, c = x :: xs ∧ x ≠ '\n') →
        collapseNewlines (a ++ List.replicate (k + 1) '\n' ++ c) =
          a ++ ' ' :: collapseNewlines c) := by
  refine ⟨fun h => ?_, rfl, noNL_collapseNLGo (stripLabels script) false,
    stripLabelsFrom_step, collapse_newline_run⟩
  rw [runRenderer_ok script synthOk delOk (fun k _ => h k)]
  rfl

/-- C3 witness: a fully successful run on `"HOST: hi\nALEX: yo"`, a label
occurrence being stripped, and a newline being collapsed to a space. -/
theorem renderer_fallback_default_voice_witness :
    (runRenderer ("HOST: hi\nALEX: yo".toList) (fun _ => true)
        (fun _ => true)).result =
      .ok (collapseNewlines (stripLabels ("HOST: hi\nALEX: yo".toList)))
    ∧ stripLabelsFrom true
        ("HOST".toList ++ ':' :: (" ".toList ++ "hi".toList)) =
        stripLabelsFrom (" ".toList.getLast? == some '\n') ("hi".toList)
    ∧ collapseNewlines ("hi".toList ++ List.replicate 1 '\n' ++ "yo".toList) =
        "hi".toList ++ ' ' :: collapseNewlines ("yo".toList) :=
  ⟨(renderer_fallback_default_voice ("HOST: hi\nALEX: yo".toList)
      (fun _ => true) (fun _ => true)).1 (fun _ => rfl),
   (renderer_fallback_default_voice ("HOST: hi\nALEX: yo".toList)
      (fun _ => true) (fun _ => true)).2.2.2.1
      ("HOST".toList) (" ".toList) ("hi".toList) (by decide) (by decide)
      (by decide) (Or.inr ⟨'h', "i".toList, rfl, by decide⟩),
   (renderer_fallback_default_voice ("HOST: hi\nALEX: yo".toList)
      (fun _ => true) (fun _ => true)).2.2.2.2
      ("hi".toList) ("yo".toList) 0 (by decide)
      (Or.inr ⟨'y', "o".toList, rfl, by decide⟩)⟩

/-! ## Claim C8: transcript sidecar durability and ordering -/

theorem mem_synthEvents {e : PEvent} {l : List Nat} {tail : PEvent}
    (he : e ∈ l.map PEvent.synthSeg ++ [tail]) (ht : tail.isSynth = true) :
    e.isSynth = true := by
  rcases List.mem_append.mp he with hm | hm
  · obtain ⟨k, -, hk⟩ := List.mem_map.mp hm
    rw [← hk]
    rfl
  · rw [List.mem_singleton.mp hm]
    exact ht

theorem runRenderer_events_synth (script : List Char)
    (synthOk delOk : Nat → Bool) :
    ∀ e ∈ (runRenderer script synthOk delOk).events, e.isSynth = true := by
  intro e he
  by_cases h1 : (passOneGo synthOk 0 (renderSegments script).length).2 = true
  · by_cases h2 : synthOk (renderSegments script).length = true
    · simp only [runRenderer, h1, h2, if_true] at he
      exact mem_synthEvents he rfl
    · have h2f : synthOk (renderSegments script).length = false := by
        simpa using h2
      simp only [runRenderer, h1, if_true, h2f, Bool.false_eq_true,
        if_false] at he
      exact mem_synthEvents he rfl
  · have h1f : (passOneGo synthOk 0 (renderSegments script).length).2 = false := by
      simpa using h1
    simp only [runRenderer, h1f, Bool.false_eq_true, if_false] at he
    exact mem_synthEvents he rfl

/-- C8: whenever script generation succeeds, the orchestrator writes the
transcript sidecar file strictly before any synthesis event, and the
sidecar is among the files on disk at the end of the run — also when the
renderer fails, in which case the overall run reports failure but the
sidecar is retained. -/
theorem sidecar_written_before_rendering
    (service : List Char → Except Unit (List Char)) (d : TwitterData)
    (synthOk delOk : Nat → Bool) (script : List Char)
    (hgen : service (promptOf d) = .ok script) :
    FileId.sidecar ∈
      (generate_critique_podcast true service d synthOk delOk).files
    ∧ (generate_critique_podcast true service d synthOk delOk).trace =
        [.fetched, .generated, .sidecarWritten] ++
          (runRenderer script synthOk delOk).events
    ∧ (∀ e ∈ (runRenderer script synthOk delOk).events, e.isSynth = true)
    ∧ (∀ e ∈ [PEvent.fetched, PEvent.generated], e.isSynth = false)
    ∧ ((runRenderer script synthOk delOk).result = .error () →
        (generate_critique_podcast true service d synthOk delOk).result = none
        ∧ FileId.sidecar ∈
            (generate_critique_podcast true service d synthOk delOk).files) := by
  have hg : generate_podcast_script service d = .ok script := by
    simp [generate_podcast_script, hgen]
  refine ⟨?_, ?_, runRenderer_events_synth script synthOk delOk, by decide,
    fun herr => ⟨?_, ?_⟩⟩
  · simp [generate_critique_podcast, hg]
  · simp [generate_critique_podcast, hg]
  · simp [generate_critique_podcast, hg, herr]
  · simp [generate_critique_podcast, hg]

/-- C8 witness: a run whose only synthesis call fails still reports
failure with the sidecar file on disk. -/
theorem sidecar_written_before_rendering_witness :
    FileId.sidecar ∈ (generate_critique_podcast true
        (fun _ => .ok ("HOST: hi".toList)) ⟨⟨[], [], 0, false, []⟩, [], "", 0⟩
        (fun _ => false) (fun _ => true)).files
    ∧ (generate_critique_podcast true (fun _ => .ok ("HOST: hi".toList))
        ⟨⟨[], [], 0, false, []⟩, [], "", 0⟩ (fun _ => false)
        (fun _ => true)).result = none := by
  have T := sidecar_written_before_rendering
    (fun _ => .ok ("HOST: hi".toList)) ⟨⟨[], [], 0, false, []⟩, [], "", 0⟩
    (fun _ => false) (fun _ => true) ("HOST: hi".toList) rfl
  exact ⟨T.1, (T.2.2.2.2 rfl).1⟩

/-! ## Claim C9: interactive post-count input -/

/-- C9: a numeric interactive input is clamped into `[1, 100]` before
use (`max(1, min(n, 100))`), and a non-numeric input falls back to the
configured default of 10 instead of failing. -/
theorem tweet_count_clamped (s : List Char) :
    (∀ n : Int, pyToInt (if s.isEmpty then "10".toList else s) = some n →
      chooseTweetCount s = max 1 (min n 100)
      ∧ 1 ≤ chooseTweetCount s ∧ chooseTweetCount s ≤ 100)
    ∧ (pyToInt (if s.isEmpty then "10".toList else s) = none →
        chooseTweetCount s = DEFAULT_TWEET_COUNT) := by
  constructor
  · intro n hn
    have heq : chooseTweetCount s = max 1 (min n 100) := by
      simp only [chooseTweetCount]
      rw [hn]
    refine ⟨heq, ?_, ?_⟩
    · rw [heq]
      exact le_max_left 1 _
    · rw [heq]
      exact max_le (by norm_num) (min_le_right n 100)
  · intro hn
    simp only [chooseTweetCount]
    rw [hn]
    rfl

/-- C9 witness: the numeric input 250 is clamped to 100; the
non-numeric input `"abc"` falls back to the default. -/
theorem tweet_count_clamped_witness :
    (chooseTweetCount ("250".toList) = max 1 (min 250 100)
      ∧ 1 ≤ chooseTweetCount ("250".toList)
      ∧ chooseTweetCount ("250".toList) ≤ 100)
    ∧ chooseTweetCount ("abc".toList) = DEFAULT_TWEET_COUNT :=
  ⟨(tweet_count_clamped ("250".toList)).1 250 (by decide),
   (tweet_count_clamped ("abc".toList)).2 (by decide)⟩

end Feedflamer
